import Mathlib

/- Verification of the authenticated-request pipeline of the MSOutlook-MCP
   repository: the token lifecycle manager (src/outlook_mcp/auth.py,
   AuthManager), the Graph HTTP client (src/outlook_mcp/auth.py, GraphClient),
   the error classifier (src/outlook_mcp/helpers.py, handle_graph_error) and
   the attachment persister (src/outlook_mcp/helpers.py,
   save_attachment_to_disk). Machine integers do not occur; Python ints are
   modelled as Nat, Python bytes and opaque payloads as type parameters,
   Python exceptions as Except values. -/

/-- Decimal digit character for a base-10 digit, as Python str renders it. -/
def digitChar10 : Nat → Char
  | 0 => '0'
  | 1 => '1'
  | 2 => '2'
  | 3 => '3'
  | 4 => '4'
  | 5 => '5'
  | 6 => '6'
  | 7 => '7'
  | 8 => '8'
  | 9 => '9'
  | _ => '*'

/-- Base-10 digits of n, most significant first (empty for n = 0). The first
argument is fuel bounding the recursion depth; n itself is always enough fuel
since a number has at most as many digits as its value. Structural recursion
on the fuel keeps the definition kernel-evaluable. -/
def natDecCore : Nat → Nat → List Char
  | 0, _ => []
  | _ + 1, 0 => []
  | fuel + 1, n + 1 =>
    natDecCore fuel ((n + 1) / 10) ++ [digitChar10 ((n + 1) % 10)]

/-- Models Python str(n) for a natural number n: its base-10 rendering. -/
def natDec (n : Nat) : String :=
  if n = 0 then "0" else String.mk (natDecCore n n)

/-- Numeric value of a digit list, used to prove natDec injective. -/
def decVal (l : List Char) : Nat :=
  l.foldl (fun a c => 10 * a + (c.toNat - 48)) 0

/-- Models CPython str.split for the single-character separator used by POSIX
paths: the list of chunks of l between occurrences of the slash (an empty
input yields one empty chunk, as in Python). -/
def splitSlash : List Char → List (List Char)
  | [] => [[]]
  | c :: cs =>
    if c = '/' then [] :: splitSlash cs
    else
      match splitSlash cs with
      | [] => [[c]]
      | p :: ps => (c :: p) :: ps

/-- Path components as PurePosixPath parses them: pieces between slashes with
empty pieces and single-dot pieces dropped; dot-dot pieces are kept, exactly
as pathlib keeps ".." in its parts. -/
def pathComponents (s : String) : List (List Char) :=
  (splitSlash s.data).filter (fun p => !(p.isEmpty || p == ['.']))

/-- Last element of a component list, or [] when there is none. -/
def lastComp : List (List Char) → List Char
  | [] => []
  | [p] => p
  | _ :: q :: ps => lastComp (q :: ps)

/-- Models PurePosixPath(s).name: the final path component (the empty string
when the path has no components, e.g. for "", "/" or "."). -/
def pathName (s : String) : String :=
  String.mk (lastComp (pathComponents s))

/-- Index of the last dot in a character list (CPython str.rfind style). -/
def lastDotIdx : List Char → Option Nat
  | [] => none
  | c :: cs =>
    match lastDotIdx cs with
    | some i => some (i + 1)
    | none => if c = '.' then some 0 else none

/-- Models PurePath(name).suffix by the CPython rule: the substring from the
last dot on, provided that dot is neither the first nor the last character;
otherwise the empty string. -/
def fileSuffix (n : String) : String :=
  match lastDotIdx n.data with
  | some i =>
    if 0 < i ∧ i < n.data.length - 1 then String.mk (n.data.drop i) else ""
  | none => ""

/-- Models PurePath(name).stem: the name with fileSuffix removed. -/
def fileStem (n : String) : String :=
  match lastDotIdx n.data with
  | some i =>
    if 0 < i ∧ i < n.data.length - 1 then String.mk (n.data.take i) else n
  | none => n

/-- The sanitization step of save_attachment_to_disk (helpers.py lines
240-243): safe_filename = Path(filename).name, replaced by the fixed fallback
"attachment" when empty. -/
def sanitize_filename (f : String) : String :=
  if pathName f = "" then "attachment" else pathName f

/-- A duplicate-name candidate as the collision loop builds it (helpers.py
line 251): stem, underscore, the counter in decimal, then the suffix. -/
def dup_candidate (stem suf : String) (i : Nat) : String :=
  stem ++ "_" ++ natDec i ++ suf

/-- Directory entries visible to target_path.exists() inside the download
directory: the directory was just created by mkdir(parents=True), so its "."
and ".." entries exist on disk, besides every file saved earlier. The state of
ATTACHMENT_DOWNLOAD_DIR is modelled as an association list from file name to
content. -/
def existing_names {β : Type*} (fs : List (String × β)) : List String :=
  "." :: ".." :: fs.map Prod.fst

/-- The collision while-loop of save_attachment_to_disk (helpers.py lines
247-252): starting from the sanitized name with counter 1, while the target
exists replace it by stem_counter+suffix and increment. The extra fuel
argument only bounds the recursion; save_attachment_to_disk passes enough
fuel that the loop provably stops at a free name before exhausting it. -/
def resolve_loop (used : List String) (stem suf : String) :
    String → Nat → Nat → String
  | target, _, 0 => target
  | target, counter, fuel + 1 =>
    if target ∈ used then
      resolve_loop used stem suf (dup_candidate stem suf counter) (counter + 1) fuel
    else target

/-- Collision-free target name for a sanitized file name against a set of
existing names. -/
def resolve_target (used : List String) (safe : String) : String :=
  resolve_loop used (fileStem safe) (fileSuffix safe) safe 1 (used.length + 2)

/-- Models save_attachment_to_disk of src/outlook_mcp/helpers.py on the
modelled directory state: sanitize the suggested name, resolve a collision
free target, write the content there, and return the chosen file name (the
absolute path is the fixed download directory joined with this single
component) together with the new directory state. -/
def save_attachment_to_disk {β : Type*} (fs : List (String × β))
    (filename : String) (content : β) : String × List (String × β) :=
  let safe := sanitize_filename filename
  let target := resolve_target (existing_names fs) safe
  (target, (target, content) :: fs)

/-- Content of the named file in the modelled directory state. -/
def fs_lookup {β : Type*} : List (String × β) → String → Option β
  | [], _ => none
  | (n, c) :: t, name => if n = name then some c else fs_lookup t name

/-- Models should_save_to_disk of src/outlook_mcp/helpers.py lines 196-208:
the body is a bare return True. -/
def should_save_to_disk (content_type : String) (size_bytes : Nat)
    (force_disk : Bool) : Bool :=
  true

/-- A name that stays inside the directory it is joined to: nonempty, not a
dot entry, and free of path separators. -/
def is_plain_component (n : String) : Prop :=
  n ≠ "" ∧ n ≠ "." ∧ n ≠ ".." ∧ '/' ∉ n.data

/-- Error taxonomy of the specification, section 7. Declared from the spec so
that the code results can be compared against it. -/
inductive ErrorKind : Type
  | AuthRequired
  | Unauthorized
  | Forbidden
  | NotFound
  | RateLimited
  | ProviderError
  | Timeout
  | IOFailure
deriving DecidableEq

/-- Decoded JSON error body of a Graph failure response, as handle_graph_error
reads it: error_body.get("error", ...).get("message", ...). Only the optional
error.message string matters to the code. -/
structure GraphBody : Type where
  errorMessage : Option String

/-- The exception handed to handle_graph_error. httpx.HTTPStatusError carries
the status code, the decoded body (none when response.json() raises), the
optional Retry-After header value, and the Python str(e) rendering of the
exception (used as the fallback detail). httpx.TimeoutException and any other
exception (with its type name and str) form the other branches. -/
inductive GraphError : Type
  | httpStatus (status : Nat) (body : Option GraphBody)
      (retryAfterHeader : Option String) (eStr : String)
  | timeout
  | other (typeName : String) (msg : String)

/-- The detail string handle_graph_error extracts from a status error:
error.message of the decoded body when present, else str(e) (the same
fallback covers an undecodable body and a body without error.message). -/
def graph_error_msg : Option GraphBody → String → String
  | none, es => es
  | some b, es => b.errorMessage.getD es

/-- The Retry-After extraction of the 429 branch (helpers.py line 105):
e.response.headers.get("Retry-After", "60"). -/
def rate_limit_retry_hint (h : Option String) : String :=
  h.getD "60"

/-- Models handle_graph_error of src/outlook_mcp/helpers.py lines 84-111: a
format-only classifier returning a single human-readable string per failure,
one branch per status family. -/
def handle_graph_error : GraphError → String
  | .httpStatus status body ra es =>
    let m := graph_error_msg body es
    if status = 401 then
      "Error 401: Authentication failed. Token may be expired. Re-run auth setup: python outlook_mcp_auth.py\nDetail: " ++ m
    else if status = 403 then
      "Error 403: Insufficient permissions. Check app registration scopes.\nDetail: " ++ m
    else if status = 404 then
      "Error 404: Resource not found. Verify the ID is correct.\nDetail: " ++ m
    else if status = 429 then
      "Error 429: Rate limited. Retry after " ++ rate_limit_retry_hint ra ++ " seconds."
    else
      "Error " ++ natDec status ++ ": " ++ m
  | .timeout =>
    "Error: Request timed out. The Graph API may be slow. Please retry."
  | .other typeName msg =>
    "Error: " ++ typeName ++ ": " ++ msg

/-- Branch of handle_graph_error taken for a given exception, read off the
if/elif chain of helpers.py lines 86-111. The code itself returns only the
message string; this abstraction names the branch so that the classification
can be compared with the taxonomy table of the spec. -/
def handle_graph_error_branch : GraphError → ErrorKind
  | .httpStatus status _ _ _ =>
    if status = 401 then .Unauthorized
    else if status = 403 then .Forbidden
    else if status = 404 then .NotFound
    else if status = 429 then .RateLimited
    else .ProviderError
  | .timeout => .Timeout
  | .other _ _ => .ProviderError

/-- Taxonomy table of spec section 7, restricted to HTTP status triggers:
401 Unauthorized, 403 Forbidden, 404 NotFound, 429 RateLimited, any other
status ProviderError. Declared from the words of the spec for comparison with
the code. -/
def spec_taxonomy_kind (status : Nat) : ErrorKind :=
  if status = 401 then .Unauthorized
  else if status = 403 then .Forbidden
  else if status = 404 then .NotFound
  else if status = 429 then .RateLimited
  else .ProviderError

/-- Outcome of GraphClient.request after the HTTP exchange, over a result
payload type J: raise_for_status turns a non-success status into an exception;
a 204 returns the sentinel; otherwise response.json() either yields a decoded
value or raises a decode error. -/
inductive RequestOutcome (J : Type) : Type
  | httpError (status : Nat)
  | noContent
  | decoded (v : J)
  | decodeFailure
deriving DecidableEq

/-- Models the response handling of GraphClient.request (auth.py lines
138-144) for a response with the given status and raw body. The JSON decoder
of the HTTP library is passed in as a function; response.raise_for_status()
raises for every non-2xx status, then the 204 check guards the sentinel
before response.json() runs on the body. -/
def graph_request_handle (J : Type) (decodeJson : String → Option J)
    (status : Nat) (body : String) : RequestOutcome J :=
  if status < 200 ∨ 300 ≤ status then .httpError status
  else if status = 204 then .noContent
  else
    match decodeJson body with
    | some v => .decoded v
    | none => .decodeFailure

/-- A concrete stand-in for json.loads over a trivial payload type, keeping
only the property the claims rest on: decoding an empty body fails
(json.loads of an empty string raises JSONDecodeError). -/
def json_loads_model (s : String) : Option Unit :=
  if s = "" then none else some ()

/-- In-memory MSAL token cache: the serialized blob plus the dirty flag
(msal.SerializableTokenCache.has_state_changed). -/
structure CacheState : Type where
  blob : String
  hasStateChanged : Bool

/-- The token cache file on disk: its content and a count of the writes
performed on it. -/
structure DiskState : Type where
  file : Option String
  writes : Nat

/-- Models AuthManager._save_cache (auth.py lines 46-49): write the serialized
cache to TOKEN_CACHE_PATH only when has_state_changed is set. MSAL serialize()
clears the flag as it serializes. -/
def save_cache (c : CacheState) (d : DiskState) : CacheState × DiskState :=
  if c.hasStateChanged then
    ({ c with hasStateChanged := false },
     { file := some c.blob, writes := d.writes + 1 })
  else (c, d)

/-- Result of an MSAL token acquisition as the code tests it with the idiom
result and "access_token" in result: a falsy result, a truthy dict without
access_token, or a dict with the bearer string. -/
inductive MsalResult : Type
  | nothing
  | noToken
  | token (t : String)

/-- Result dict of acquire_token_by_auth_code_flow: either tokens were issued,
or the provider rejected the exchange and MSAL returns an error dict (error
code and description) as a normal value. -/
inductive MsalAuthResult : Type
  | token (t : String)
  | errorResult (err desc : String)

/-- The MSAL ConfidentialClientApplication as AuthManager drives it, over
opaque account, pending-flow and callback-response types. Each acquisition
reads and possibly mutates the token cache, so it maps the cache state to a
result paired with the new cache state. -/
structure MsalApp (Acct Flow R : Type) : Type where
  accounts : List Acct
  acquire_token_silent : List String → Acct → CacheState → MsalResult × CacheState
  acquire_token_for_client : List String → CacheState → MsalResult × CacheState
  initiate_auth_code_flow : List String → String → Flow
  flow_auth_uri : Flow → String
  acquire_token_by_auth_code_flow : Flow → R → CacheState → MsalAuthResult × CacheState

/-- GRAPH_SCOPES of auth.py lines 11-18. -/
def GRAPH_SCOPES : List String :=
  ["Mail.Read", "Mail.ReadWrite", "Mail.Send",
   "Calendars.Read", "Calendars.ReadWrite", "User.Read"]

/-- The fully qualified scope list both get_token and get_auth_url build. -/
def graph_scopes_full : List String :=
  GRAPH_SCOPES.map (fun s => "https://graph.microsoft.com/" ++ s)

/-- The fixed default scope of the client-credentials attempt (auth.py line
93). -/
def default_client_scope : List String :=
  ["https://graph.microsoft.com/.default"]

/-- The RuntimeError message raised when no acquisition path yields a token
(auth.py lines 99-102). -/
def auth_required_message : String :=
  "No valid token available. Run the auth setup script first: python outlook_mcp_auth.py"

/-- The client-credentials tail of get_token (auth.py lines 92-102): try
acquire_token_for_client on the fixed default scope, persist and return the
token on success, otherwise raise RuntimeError. -/
def get_token_app_only {Acct Flow R : Type} (app : MsalApp Acct Flow R)
    (c : CacheState) (d : DiskState) :
    Except String String × CacheState × DiskState :=
  match app.acquire_token_for_client default_client_scope c with
  | (.token t, c1) =>
    let s := save_cache c1 d
    (.ok t, s.1, s.2)
  | (.nothing, c1) => (.error auth_required_message, c1, d)
  | (.noToken, c1) => (.error auth_required_message, c1, d)

/-- Models AuthManager.get_token (auth.py lines 80-102): silent acquisition
first when an account is cached, then the client-credentials fallback, then
the RuntimeError. Every successful path persists through _save_cache. -/
def get_token {Acct Flow R : Type} (app : MsalApp Acct Flow R)
    (c : CacheState) (d : DiskState) :
    Except String String × CacheState × DiskState :=
  match app.accounts with
  | [] => get_token_app_only app c d
  | a :: _ =>
    match app.acquire_token_silent graph_scopes_full a c with
    | (.token t, c1) =>
      let s := save_cache c1 d
      (.ok t, s.1, s.2)
    | (.nothing, c1) => get_token_app_only app c1 d
    | (.noToken, c1) => get_token_app_only app c1 d

/-- How many times one call to get_token invokes each acquisition oracle
(silent, client-credentials), read off the same branch structure: the silent
attempt runs exactly when an account exists, the client-credentials attempt
exactly when the silent attempt was skipped or yielded no token. -/
def get_token_oracle_calls {Acct Flow R : Type} (app : MsalApp Acct Flow R)
    (c : CacheState) : Nat × Nat :=
  match app.accounts with
  | [] => (0, 1)
  | a :: _ =>
    match app.acquire_token_silent graph_scopes_full a c with
    | (.token _, _) => (1, 0)
    | (.nothing, _) => (1, 1)
    | (.noToken, _) => (1, 1)

/-- Instance state of AuthManager relevant to the interactive flow: the
hidden _pending_flow attribute, absent (none) until get_auth_url assigns it. -/
structure AuthManagerState (Flow : Type) : Type where
  pending_flow : Option Flow

/-- Models AuthManager.__init__ (auth.py lines 32-39): no statement assigns
_pending_flow, so the attribute is absent on a fresh instance. -/
def auth_manager_init (Flow : Type) : AuthManagerState Flow :=
  { pending_flow := none }

/-- The fixed redirect URI of get_auth_url (auth.py line 67). -/
def auth_redirect_uri : String :=
  "http://localhost:5000/callback"

/-- Models AuthManager.get_auth_url (auth.py lines 62-70): start an auth-code
flow, store it in _pending_flow, return its auth_uri. -/
def get_auth_url {Acct Flow R : Type} (app : MsalApp Acct Flow R)
    (st : AuthManagerState Flow) : String × AuthManagerState Flow :=
  let flow := app.initiate_auth_code_flow graph_scopes_full auth_redirect_uri
  (app.flow_auth_uri flow, { st with pending_flow := some flow })

/-- The Python exceptions the auth embedding distinguishes: reading a missing
instance attribute raises AttributeError. -/
inductive PyException : Type
  | attributeError

/-- Models AuthManager.complete_auth (auth.py lines 72-78): read
self._pending_flow (AttributeError when it was never assigned), exchange the
callback response through MSAL, persist the cache, and return the MSAL result
dict unchanged, whether it carries tokens or an error. -/
def complete_auth {Acct Flow R : Type} (app : MsalApp Acct Flow R)
    (pending : Option Flow) (resp : R) (c : CacheState) (d : DiskState) :
    Except PyException (MsalAuthResult × CacheState × DiskState) :=
  match pending with
  | none => .error .attributeError
  | some flow =>
    match app.acquire_token_by_auth_code_flow flow resp c with
    | (result, c1) =>
      let s := save_cache c1 d
      .ok (result, s.1, s.2)

/-- A concrete MSAL application used by the witnesses: one cached account,
silent acquisition serving the cached bearer without touching the cache,
client-credentials rejected, and an auth-code exchange that reports the
consumed-code error dict while leaving the cache unchanged. -/
def msal_app_demo : MsalApp Unit Unit Unit where
  accounts := [()]
  acquire_token_silent := fun _ _ cc => (.token "tok", cc)
  acquire_token_for_client := fun _ cc => (.nothing, cc)
  initiate_auth_code_flow := fun _ _ => ()
  flow_auth_uri := fun _ => "https://login.example/authorize"
  acquire_token_by_auth_code_flow := fun _ _ cc =>
    (.errorResult "invalid_grant" "consumed", cc)

/-- A clean cache state used by the witnesses. -/
def cache_demo : CacheState :=
  { blob := "cache-blob", hasStateChanged := false }

/-- A fresh disk state used by the witnesses. -/
def disk_demo : DiskState :=
  { file := none, writes := 0 }

theorem digitChar10_toNat (d : Nat) (h : d < 10) :
    (digitChar10 d).toNat = 48 + d := by
  interval_cases d <;> decide

theorem digitChar10_ne_slash (d : Nat) : digitChar10 d ≠ '/' := by
  unfold digitChar10
  split <;> decide

theorem decVal_append (l : List Char) (c : Char) :
    decVal (l ++ [c]) = 10 * decVal l + (c.toNat - 48) := by
  unfold decVal
  rw [List.foldl_append]
  rfl

theorem decVal_natDecCore :
    ∀ fuel n : Nat, n ≤ fuel → decVal (natDecCore fuel n) = n := by
  intro fuel
  induction fuel with
  | zero =>
    intro n hn
    interval_cases n
    rfl
  | succ f ih =>
    intro n hn
    match n with
    | 0 => rfl
    | m + 1 =>
      have hd : (m + 1) / 10 ≤ f := by
        have := Nat.div_lt_self (Nat.succ_pos m) (by decide : 1 < 10)
        omega
      simp only [natDecCore]
      rw [decVal_append, ih _ hd,
        digitChar10_toNat _ (Nat.mod_lt _ (by decide))]
      omega

theorem natDec_inj {i j : Nat} (hi : 1 ≤ i) (hj : 1 ≤ j)
    (h : natDec i = natDec j) : i = j := by
  unfold natDec at h
  rw [if_neg (by omega), if_neg (by omega)] at h
  have hdata : natDecCore i i = natDecCore j j := congrArg String.data h
  have hv := congrArg decVal hdata
  rwa [decVal_natDecCore i i le_rfl, decVal_natDecCore j j le_rfl] at hv

theorem natDecCore_no_slash : ∀ fuel n : Nat, '/' ∉ natDecCore fuel n := by
  intro fuel
  induction fuel with
  | zero => intro n; simp [natDecCore]
  | succ f ih =>
    intro n
    match n with
    | 0 => simp [natDecCore]
    | m + 1 =>
      simp only [natDecCore, List.mem_append, List.mem_singleton]
      rintro (h | h)
      · exact ih _ h
      · exact digitChar10_ne_slash _ h.symm

theorem natDec_no_slash (n : Nat) : '/' ∉ (natDec n).data := by
  unfold natDec
  split
  · decide
  · exact natDecCore_no_slash n n

theorem splitSlash_no_slash :
    ∀ l : List Char, ∀ p ∈ splitSlash l, '/' ∉ p := by
  intro l
  induction l with
  | nil =>
    intro p hp
    simp only [splitSlash, List.mem_singleton] at hp
    simp [hp]
  | cons c cs ih =>
    intro p hp
    by_cases hc : c = '/'
    · rw [splitSlash, if_pos hc] at hp
      rcases List.mem_cons.mp hp with h | h
      · simp [h]
      · exact ih p h
    · rw [splitSlash, if_neg hc] at hp
      cases hsp : splitSlash cs with
      | nil =>
        rw [hsp] at hp
        simp only [List.mem_singleton] at hp
        subst hp
        intro hm
        rcases List.mem_singleton.mp hm with h
        exact hc h.symm
      | cons q qs =>
        rw [hsp] at hp
        rcases List.mem_cons.mp hp with h | h
        · subst h
          intro hm
          rcases List.mem_cons.mp hm with h | h
          · exact hc h.symm
          · exact ih q (hsp ▸ List.mem_cons_self q qs) h
        · exact ih p (hsp ▸ List.mem_cons_of_mem q h)

theorem lastComp_eq_nil_or_mem :
    ∀ L : List (List Char), lastComp L = [] ∨ lastComp L ∈ L := by
  intro L
  induction L with
  | nil => left; rfl
  | cons p t ih =>
    cases t with
    | nil => right; simp [lastComp]
    | cons q ps =>
      simp only [lastComp]
      rcases ih with h | h
      · left; exact h
      · right; exact List.mem_cons_of_mem p h

theorem pathComponents_no_slash (s : String) :
    ∀ p ∈ pathComponents s, '/' ∉ p := by
  intro p hp
  have h := List.mem_filter.mp hp
  exact splitSlash_no_slash s.data p h.1

theorem pathName_no_slash (s : String) : '/' ∉ (pathName s).data := by
  unfold pathName
  rcases lastComp_eq_nil_or_mem (pathComponents s) with h | h
  · rw [h]; simp
  · exact pathComponents_no_slash s _ h

theorem sanitize_filename_ne_empty (f : String) : sanitize_filename f ≠ "" := by
  unfold sanitize_filename
  split
  · decide
  · assumption

theorem sanitize_filename_no_slash (f : String) :
    '/' ∉ (sanitize_filename f).data := by
  unfold sanitize_filename
  split
  · decide
  · exact pathName_no_slash f

theorem fileStem_no_slash {n : String} (h : '/' ∉ n.data) :
    '/' ∉ (fileStem n).data := by
  unfold fileStem
  split
  · split
    · intro hm
      exact h (List.take_subset _ _ hm)
    · exact h
  · exact h

theorem fileSuffix_no_slash {n : String} (h : '/' ∉ n.data) :
    '/' ∉ (fileSuffix n).data := by
  unfold fileSuffix
  split
  · split
    · intro hm
      exact h (List.drop_subset _ _ hm)
    · decide
  · decide

theorem dup_candidate_ne_empty (stem suf : String) (i : Nat) :
    dup_candidate stem suf i ≠ "" := by
  intro h
  have hd := congrArg String.data h
  simp [dup_candidate, String.data_append] at hd

theorem dup_candidate_no_slash {stem suf : String} (hs : '/' ∉ stem.data)
    (hu : '/' ∉ suf.data) (i : Nat) :
    '/' ∉ (dup_candidate stem suf i).data := by
  simp only [dup_candidate, String.data_append, List.mem_append]
  rintro (((h | h) | h) | h)
  · exact hs h
  · simp at h
  · exact natDec_no_slash i h
  · exact hu h

theorem dup_candidate_inj {stem suf : String} {i j : Nat} (hi : 1 ≤ i)
    (hj : 1 ≤ j) (h : dup_candidate stem suf i = dup_candidate stem suf j) :
    i = j := by
  have hd := congrArg String.data h
  simp only [dup_candidate, String.data_append, List.append_assoc] at hd
  have h1 := List.append_cancel_left hd
  simp only [List.singleton_append, List.cons.injEq, true_and] at h1
  have h2 : (natDec i).data = (natDec j).data := List.append_cancel_right h1
  exact natDec_inj hi hj (String.ext h2)

theorem exists_free_candidate (used : List String) (stem suf : String) :
    ∃ i, 1 ≤ i ∧ i ≤ used.length + 1 ∧ dup_candidate stem suf i ∉ used := by
  by_contra hall
  push_neg at hall
  have hnd : ((List.range (used.length + 1)).map
      (fun k => dup_candidate stem suf (k + 1))).Nodup := by
    refine List.Nodup.map ?_ (List.nodup_range _)
    intro a b hab
    have := dup_candidate_inj (Nat.le_add_left 1 a) (Nat.le_add_left 1 b) hab
    omega
  have hsub : ((List.range (used.length + 1)).map
      (fun k => dup_candidate stem suf (k + 1))) ⊆ used := by
    intro x hx
    rcases List.mem_map.mp hx with ⟨k, hk, rfl⟩
    have hk' := List.mem_range.mp hk
    exact hall (k + 1) (by omega) (by omega)
  have hlen := (hnd.subperm hsub).length_le
  simp only [List.length_map, List.length_range] at hlen
  omega

theorem resolve_loop_not_mem (used : List String) (stem suf : String) :
    ∀ (fuel counter : Nat) (target : String),
      (target ∉ used ∨
        ∃ i, counter ≤ i ∧ i < counter + fuel ∧ dup_candidate stem suf i ∉ used) →
      resolve_loop used stem suf target counter fuel ∉ used := by
  intro fuel
  induction fuel with
  | zero =>
    intro counter target h
    rcases h with h | ⟨i, h1, h2, _⟩
    · exact h
    · omega
  | succ f ih =>
    intro counter target h
    rw [resolve_loop]
    split
    case isTrue hmem =>
      apply ih (counter + 1) (dup_candidate stem suf counter)
      rcases h with h | ⟨i, h1, h2, h3⟩
      · exact absurd hmem h
      · rcases Nat.eq_or_lt_of_le h1 with rfl | hlt
        · exact Or.inl h3
        · exact Or.inr ⟨i, by omega, by omega, h3⟩
    case isFalse hmem => exact hmem

theorem resolve_loop_shape (used : List String) (stem suf : String) :
    ∀ (fuel counter : Nat) (target : String), 1 ≤ counter →
      resolve_loop used stem suf target counter fuel = target ∨
      ∃ i, 1 ≤ i ∧
        resolve_loop used stem suf target counter fuel = dup_candidate stem suf i := by
  intro fuel
  induction fuel with
  | zero => intro counter target _; left; rfl
  | succ f ih =>
    intro counter target hc
    rw [resolve_loop]
    split
    case isTrue hmem =>
      rcases ih (counter + 1) (dup_candidate stem suf counter) (by omega) with h | ⟨i, hi, h⟩
      · right; exact ⟨counter, hc, h⟩
      · right; exact ⟨i, hi, h⟩
    case isFalse => left; rfl

theorem resolve_loop_base (used : List String) (stem suf target : String)
    (counter fuel : Nat) (h : target ∉ used) :
    resolve_loop used stem suf target counter (fuel + 1) = target := by
  rw [resolve_loop, if_neg h]

theorem resolve_target_not_mem (used : List String) (safe : String) :
    resolve_target used safe ∉ used := by
  unfold resolve_target
  apply resolve_loop_not_mem
  rcases exists_free_candidate used (fileStem safe) (fileSuffix safe) with ⟨i, h1, h2, h3⟩
  exact Or.inr ⟨i, h1, by omega, h3⟩

theorem resolve_target_of_not_mem (used : List String) (safe : String)
    (h : safe ∉ used) : resolve_target used safe = safe :=
  resolve_loop_base used (fileStem safe) (fileSuffix safe) safe 1 (used.length + 1) h

theorem resolve_target_shape (used : List String) (safe : String) :
    resolve_target used safe = safe ∨
    ∃ i, 1 ≤ i ∧
      resolve_target used safe = dup_candidate (fileStem safe) (fileSuffix safe) i :=
  resolve_loop_shape used (fileStem safe) (fileSuffix safe) (used.length + 2) 1 safe le_rfl

/-- C9: for every combination of content type, byte size and force-disk flag,
should_save_to_disk returns true: attachments are always saved to disk and no
inline base64 branch exists. -/
theorem C9_always_save_to_disk :
    ∀ (content_type : String) (size_bytes : Nat) (force_disk : Bool),
      should_save_to_disk content_type size_bytes force_disk = true := by
  intro _ _ _
  rfl

/-- C4: for every suggested filename, save_attachment_to_disk strips the
directory part before writing: the saved name is a single plain component
(nonempty, not a dot entry, no separator), so the written path stays inside
the configured destination directory; the name "../../secret.txt" saves as
exactly secret.txt; and when the sanitized name is empty the fixed fallback
"attachment" is substituted. -/
theorem C4_path_sanitization {β : Type*} (fs : List (String × β)) (f : String)
    (c : β) :
    is_plain_component (save_attachment_to_disk fs f c).1 ∧
    (save_attachment_to_disk ([] : List (String × β)) "../../secret.txt" c).1
      = "secret.txt" ∧
    (pathName f = "" → sanitize_filename f = "attachment") := by
  refine ⟨?_, ?_, ?_⟩
  · have h1 : (save_attachment_to_disk fs f c).1
        = resolve_target (existing_names fs) (sanitize_filename f) := rfl
    rw [h1]
    have hnm := resolve_target_not_mem (existing_names fs) (sanitize_filename f)
    have hdot : resolve_target (existing_names fs) (sanitize_filename f) ≠ "." := by
      intro he
      rw [he] at hnm
      exact hnm (by simp [existing_names])
    have hdd : resolve_target (existing_names fs) (sanitize_filename f) ≠ ".." := by
      intro he
      rw [he] at hnm
      exact hnm (by simp [existing_names])
    have hne : resolve_target (existing_names fs) (sanitize_filename f) ≠ "" := by
      rcases resolve_target_shape (existing_names fs) (sanitize_filename f) with
        hsh | ⟨i, _, hsh⟩
      · rw [hsh]; exact sanitize_filename_ne_empty f
      · rw [hsh]; exact dup_candidate_ne_empty _ _ _
    have hns : '/' ∉ (resolve_target (existing_names fs) (sanitize_filename f)).data := by
      rcases resolve_target_shape (existing_names fs) (sanitize_filename f) with
        hsh | ⟨i, _, hsh⟩
      · rw [hsh]; exact sanitize_filename_no_slash f
      · rw [hsh]
        exact dup_candidate_no_slash (fileStem_no_slash (sanitize_filename_no_slash f))
          (fileSuffix_no_slash (sanitize_filename_no_slash f)) i
    exact ⟨hne, hdot, hdd, hns⟩
  · rfl
  · intro h
    unfold sanitize_filename
    rw [if_pos h]

/-- C4 witness: the path "/" sanitizes to the empty name, the fallback
"attachment" is substituted, and the saved name is a plain component. -/
theorem C4_witness :
    pathName "/" = "" ∧ sanitize_filename "/" = "attachment" ∧
    is_plain_component (save_attachment_to_disk ([] : List (String × Nat)) "/" 0).1 :=
  ⟨rfl, (C4_path_sanitization ([] : List (String × Nat)) "/" 0).2.2 rfl,
   (C4_path_sanitization ([] : List (String × Nat)) "/" 0).1⟩

/-- C3: saving two filenames that sanitize to the same name, in succession,
never overwrites: the second save resolves to a name unused in the directory,
distinct from the first, of the form stem_i+suffix with a numeric counter
i at least 1, and afterwards both files are present with their original
contents. -/
theorem C3_collision_safety {β : Type*} (fs : List (String × β)) (f1 f2 : String)
    (c1 c2 : β) (hsame : sanitize_filename f2 = sanitize_filename f1) :
    (save_attachment_to_disk (save_attachment_to_disk fs f1 c1).2 f2 c2).1
      ∉ existing_names (save_attachment_to_disk fs f1 c1).2 ∧
    (save_attachment_to_disk (save_attachment_to_disk fs f1 c1).2 f2 c2).1
      ≠ (save_attachment_to_disk fs f1 c1).1 ∧
    fs_lookup (save_attachment_to_disk (save_attachment_to_disk fs f1 c1).2 f2 c2).2
      (save_attachment_to_disk fs f1 c1).1 = some c1 ∧
    fs_lookup (save_attachment_to_disk (save_attachment_to_disk fs f1 c1).2 f2 c2).2
      (save_attachment_to_disk (save_attachment_to_disk fs f1 c1).2 f2 c2).1 = some c2 ∧
    ∃ i, 1 ≤ i ∧
      (save_attachment_to_disk (save_attachment_to_disk fs f1 c1).2 f2 c2).1
        = dup_candidate (fileStem (sanitize_filename f1))
            (fileSuffix (sanitize_filename f1)) i := by
  have hsv : ∀ (gs : List (String × β)) (g : String) (k : β),
      save_attachment_to_disk gs g k
        = (resolve_target (existing_names gs) (sanitize_filename g),
           (resolve_target (existing_names gs) (sanitize_filename g), k) :: gs) :=
    fun _ _ _ => rfl
  simp only [hsv, hsame]
  generalize hq : resolve_target (existing_names fs) (sanitize_filename f1) = p1
  generalize hq2 : resolve_target
      (existing_names ((p1, c1) :: fs)) (sanitize_filename f1) = p2
  have hnm : p2 ∉ existing_names ((p1, c1) :: fs) := by
    rw [← hq2]
    exact resolve_target_not_mem _ _
  have hp1mem : p1 ∈ existing_names ((p1, c1) :: fs) := by
    simp [existing_names]
  have hneq : p2 ≠ p1 := by
    intro he
    rw [he] at hnm
    exact hnm hp1mem
  have hsafe1 : sanitize_filename f1 ∈ existing_names ((p1, c1) :: fs) := by
    by_cases h0 : sanitize_filename f1 ∈ existing_names fs
    · simp only [existing_names, List.mem_cons, List.map_cons] at h0 ⊢
      tauto
    · have hid := resolve_target_of_not_mem _ _ h0
      simp only [existing_names, List.mem_cons, List.map_cons]
      right; right; left
      rw [← hq, hid]
  refine ⟨hnm, hneq, by simp [fs_lookup, hneq], by simp [fs_lookup], ?_⟩
  rcases resolve_target_shape (existing_names ((p1, c1) :: fs))
      (sanitize_filename f1) with hsh | ⟨i, hi, hsh⟩
  · exfalso
    apply hnm
    rw [← hq2, hsh]
    exact hsafe1
  · exact ⟨i, hi, by rw [← hq2, hsh]⟩

/-- C3 witness: saving report.txt twice into an empty directory produces
report.txt then report_1.txt; afterwards both files exist with their own
contents. -/
theorem C3_witness :
    (save_attachment_to_disk
      (save_attachment_to_disk ([] : List (String × Nat)) "report.txt" 0).2
      "report.txt" 1).1 = "report_1.txt" ∧
    ((save_attachment_to_disk
        (save_attachment_to_disk ([] : List (String × Nat)) "report.txt" 0).2
        "report.txt" 1).1
      ∉ existing_names (save_attachment_to_disk ([] : List (String × Nat)) "report.txt" 0).2 ∧
    (save_attachment_to_disk
        (save_attachment_to_disk ([] : List (String × Nat)) "report.txt" 0).2
        "report.txt" 1).1
      ≠ (save_attachment_to_disk ([] : List (String × Nat)) "report.txt" 0).1 ∧
    fs_lookup (save_attachment_to_disk
        (save_attachment_to_disk ([] : List (String × Nat)) "report.txt" 0).2
        "report.txt" 1).2
      (save_attachment_to_disk ([] : List (String × Nat)) "report.txt" 0).1 = some 0 ∧
    fs_lookup (save_attachment_to_disk
        (save_attachment_to_disk ([] : List (String × Nat)) "report.txt" 0).2
        "report.txt" 1).2
      (save_attachment_to_disk
        (save_attachment_to_disk ([] : List (String × Nat)) "report.txt" 0).2
        "report.txt" 1).1 = some 1 ∧
    ∃ i, 1 ≤ i ∧
      (save_attachment_to_disk
          (save_attachment_to_disk ([] : List (String × Nat)) "report.txt" 0).2
          "report.txt" 1).1
        = dup_candidate (fileStem (sanitize_filename "report.txt"))
            (fileSuffix (sanitize_filename "report.txt")) i) :=
  ⟨by decide, C3_collision_safety [] "report.txt" "report.txt" 0 1 rfl⟩

theorem str_append_ne_empty_left {a : String} (h : a ≠ "") (b : String) :
    a ++ b ≠ "" := by
  intro he
  have hd := congrArg String.data he
  rw [String.data_append] at hd
  rcases List.append_eq_nil.mp hd with ⟨ha, _⟩
  exact h (String.ext ha)

/-- C1 counterexample: the classifier result is a bare message string, so a
kind-extraction that does not inspect the message text (a function constant
in its string argument) cannot exist for the three kinds: no structured,
machine-inspectable kind field accompanies the message. -/
theorem C1_counterexample :
    ¬ ∃ f : String → ErrorKind,
      (∀ s t, f s = f t) ∧
      f (handle_graph_error GraphError.timeout) = ErrorKind.Timeout ∧
      f (handle_graph_error (GraphError.httpStatus 429 none (some "60") "throttled"))
        = ErrorKind.RateLimited ∧
      f (handle_graph_error (GraphError.httpStatus 500 none none "boom"))
        = ErrorKind.ProviderError := by
  rintro ⟨f, hconst, h1, h2, _⟩
  have hc := hconst (handle_graph_error GraphError.timeout)
    (handle_graph_error (GraphError.httpStatus 429 none (some "60") "throttled"))
  rw [h1, h2] at hc
  exact ErrorKind.noConfusion hc

/-- C1 amended: every failure yields a non-empty human-readable message, and
the failure kind lives only in that text: the classifier returns a single
string, whose values for a timeout, a rate limit and a generic provider
failure are pairwise distinct strings (distinguishable by their fixed
prefixes, i.e. by string inspection). -/
theorem C1_amended_messages :
    (∀ e, handle_graph_error e ≠ "") ∧
    handle_graph_error GraphError.timeout
      ≠ handle_graph_error (GraphError.httpStatus 429 none (some "60") "throttled") ∧
    handle_graph_error GraphError.timeout
      ≠ handle_graph_error (GraphError.httpStatus 500 none none "boom") ∧
    handle_graph_error (GraphError.httpStatus 429 none (some "60") "throttled")
      ≠ handle_graph_error (GraphError.httpStatus 500 none none "boom") := by
  refine ⟨?_, by decide, by decide, by decide⟩
  intro e
  match e with
  | .timeout => decide
  | .other ty msg =>
    show "Error: " ++ ty ++ ": " ++ msg ≠ ""
    exact str_append_ne_empty_left
      (str_append_ne_empty_left (str_append_ne_empty_left (by decide) ty) ": ") msg
  | .httpStatus status body ra es =>
    simp only [handle_graph_error]
    split
    · exact str_append_ne_empty_left (by decide) _
    · split
      · exact str_append_ne_empty_left (by decide) _
      · split
        · exact str_append_ne_empty_left (by decide) _
        · split
          · exact str_append_ne_empty_left
              (str_append_ne_empty_left (by decide) _) _
          · exact str_append_ne_empty_left
              (str_append_ne_empty_left
                (str_append_ne_empty_left (by decide) _) _) _

/-- C5: the statuses 401, 403, 404, 429 and generic 500 take exactly the
branches the taxonomy table prescribes, with the exact branch messages, and
the 429 retry hint equals the Retry-After value (numeric when the header is a
number) with the fixed default 60 when the header is absent. -/
theorem C5_classification_table (body : Option GraphBody) (ra : Option String)
    (es : String) (n : Nat) :
    handle_graph_error_branch (GraphError.httpStatus 401 body ra es)
      = spec_taxonomy_kind 401 ∧
    handle_graph_error_branch (GraphError.httpStatus 403 body ra es)
      = spec_taxonomy_kind 403 ∧
    handle_graph_error_branch (GraphError.httpStatus 404 body ra es)
      = spec_taxonomy_kind 404 ∧
    handle_graph_error_branch (GraphError.httpStatus 429 body ra es)
      = spec_taxonomy_kind 429 ∧
    handle_graph_error_branch (GraphError.httpStatus 500 body ra es)
      = spec_taxonomy_kind 500 ∧
    spec_taxonomy_kind 401 = ErrorKind.Unauthorized ∧
    spec_taxonomy_kind 403 = ErrorKind.Forbidden ∧
    spec_taxonomy_kind 404 = ErrorKind.NotFound ∧
    spec_taxonomy_kind 429 = ErrorKind.RateLimited ∧
    spec_taxonomy_kind 500 = ErrorKind.ProviderError ∧
    handle_graph_error (GraphError.httpStatus 401 body ra es)
      = "Error 401: Authentication failed. Token may be expired. Re-run auth setup: python outlook_mcp_auth.py\nDetail: "
        ++ graph_error_msg body es ∧
    handle_graph_error (GraphError.httpStatus 403 body ra es)
      = "Error 403: Insufficient permissions. Check app registration scopes.\nDetail: "
        ++ graph_error_msg body es ∧
    handle_graph_error (GraphError.httpStatus 404 body ra es)
      = "Error 404: Resource not found. Verify the ID is correct.\nDetail: "
        ++ graph_error_msg body es ∧
    handle_graph_error (GraphError.httpStatus 429 body ra es)
      = "Error 429: Rate limited. Retry after " ++ rate_limit_retry_hint ra
        ++ " seconds." ∧
    handle_graph_error (GraphError.httpStatus 500 body ra es)
      = "Error 500: " ++ graph_error_msg body es ∧
    rate_limit_retry_hint (some (natDec n)) = natDec n ∧
    rate_limit_retry_hint none = "60" := by
  refine ⟨rfl, rfl, rfl, rfl, rfl, rfl, rfl, rfl, rfl, rfl,
    rfl, rfl, rfl, rfl, ?_, rfl, rfl⟩
  show "Error " ++ natDec 500 ++ ": " ++ graph_error_msg body es
      = "Error 500: " ++ graph_error_msg body es
  have h5 : natDec 500 = "500" := by decide
  rw [h5]
  have hp : ("Error " ++ "500" ++ ": " : String) = "Error 500: " := by decide
  rw [hp]

/-- C6 counterexample: a response with the success status 200 and an empty
body is passed to the JSON decoder and yields a decode failure, not the
no-content sentinel, because the code guards the sentinel on status 204
alone. -/
theorem C6_counterexample :
    graph_request_handle Unit json_loads_model 200 "" = RequestOutcome.decodeFailure ∧
    graph_request_handle Unit json_loads_model 200 "" ≠ RequestOutcome.noContent := by
  constructor <;> decide

/-- C6 amended: a 204 response short-circuits to the no-content sentinel
before any decoding, for every body; a success response with an empty body
and any status other than 204 reaches the JSON decoder, which fails on the
empty payload. -/
theorem C6_amended_no_content (J : Type) (dec : String → Option J)
    (body : String) (status : Nat) :
    graph_request_handle J dec 204 body = RequestOutcome.noContent ∧
    (dec "" = none → 200 ≤ status → status < 300 → status ≠ 204 →
      graph_request_handle J dec status "" = RequestOutcome.decodeFailure) := by
  constructor
  · rfl
  · intro h1 h2 h3 h4
    unfold graph_request_handle
    rw [if_neg (by omega), if_neg h4, h1]

/-- C6 amended witness: with the concrete decoder, status 204 yields the
sentinel and status 200 with empty body yields the decode failure. -/
theorem C6_witness :
    graph_request_handle Unit json_loads_model 204 "" = RequestOutcome.noContent ∧
    graph_request_handle Unit json_loads_model 200 "" = RequestOutcome.decodeFailure :=
  ⟨(C6_amended_no_content Unit json_loads_model "" 200).1,
   (C6_amended_no_content Unit json_loads_model "" 200).2 rfl (by decide)
     (by decide) (by decide)⟩

/-- C2: get_token attempts silent acquisition first whenever an account is
cached and returns that bearer on success; otherwise it attempts the
client-credentials acquisition against the fixed default scope and returns
its bearer on success; only when both paths fail does it raise the
RuntimeError instructing the out-of-band interactive setup, with a non-empty
message; and within one call each acquisition oracle is consulted at most
once (the failure is never retried). -/
theorem C2_get_token_order {Acct Flow R : Type} (app : MsalApp Acct Flow R)
    (c : CacheState) (d : DiskState) :
    (∀ a rest t c1, app.accounts = a :: rest →
      app.acquire_token_silent graph_scopes_full a c = (.token t, c1) →
      (get_token app c d).1 = .ok t) ∧
    (∀ t c1, app.accounts = [] →
      app.acquire_token_for_client default_client_scope c = (.token t, c1) →
      (get_token app c d).1 = .ok t) ∧
    (∀ a rest r c1 u c2, app.accounts = a :: rest →
      app.acquire_token_silent graph_scopes_full a c = (r, c1) →
      (∀ t, r ≠ .token t) →
      app.acquire_token_for_client default_client_scope c1 = (.token u, c2) →
      (get_token app c d).1 = .ok u) ∧
    (∀ r c1, app.accounts = [] →
      app.acquire_token_for_client default_client_scope c = (r, c1) →
      (∀ t, r ≠ .token t) →
      (get_token app c d).1 = .error auth_required_message) ∧
    (∀ a rest r c1 r2 c2, app.accounts = a :: rest →
      app.acquire_token_silent graph_scopes_full a c = (r, c1) →
      (∀ t, r ≠ .token t) →
      app.acquire_token_for_client default_client_scope c1 = (r2, c2) →
      (∀ t, r2 ≠ .token t) →
      (get_token app c d).1 = .error auth_required_message) ∧
    auth_required_message ≠ "" ∧
    (get_token_oracle_calls app c).1 ≤ 1 ∧
    (get_token_oracle_calls app c).2 ≤ 1 := by
  refine ⟨?_, ?_, ?_, ?_, ?_, by decide, ?_, ?_⟩
  · intro a rest t c1 hacc hsil
    simp only [get_token, hacc, hsil]
  · intro t c1 hacc hcli
    simp only [get_token, get_token_app_only, hacc, hcli]
  · intro a rest r c1 u c2 hacc hsil hr hcli
    cases r with
    | token t => exact absurd rfl (hr t)
    | nothing => simp only [get_token, get_token_app_only, hacc, hsil, hcli]
    | noToken => simp only [get_token, get_token_app_only, hacc, hsil, hcli]
  · intro r c1 hacc hcli hr
    cases r with
    | token t => exact absurd rfl (hr t)
    | nothing => simp only [get_token, get_token_app_only, hacc, hcli]
    | noToken => simp only [get_token, get_token_app_only, hacc, hcli]
  · intro a rest r c1 r2 c2 hacc hsil hr hcli hr2
    cases r with
    | token t => exact absurd rfl (hr t)
    | nothing =>
      cases r2 with
      | token t => exact absurd rfl (hr2 t)
      | nothing => simp only [get_token, get_token_app_only, hacc, hsil, hcli]
      | noToken => simp only [get_token, get_token_app_only, hacc, hsil, hcli]
    | noToken =>
      cases r2 with
      | token t => exact absurd rfl (hr2 t)
      | nothing => simp only [get_token, get_token_app_only, hacc, hsil, hcli]
      | noToken => simp only [get_token, get_token_app_only, hacc, hsil, hcli]
  · rcases hacc : app.accounts with _ | ⟨a, rest⟩
    · simp [get_token_oracle_calls, hacc]
    · rcases hsil : app.acquire_token_silent graph_scopes_full a c with ⟨r, c1⟩
      cases r <;> simp [get_token_oracle_calls, hacc, hsil]
  · rcases hacc : app.accounts with _ | ⟨a, rest⟩
    · simp [get_token_oracle_calls, hacc]
    · rcases hsil : app.acquire_token_silent graph_scopes_full a c with ⟨r, c1⟩
      cases r <;> simp [get_token_oracle_calls, hacc, hsil]

/-- C2 witness: with the demo application (one account, silent acquisition
serving a bearer), get_token returns that bearer. -/
theorem C2_witness :
    msal_app_demo.accounts = [()] ∧
    msal_app_demo.acquire_token_silent graph_scopes_full () cache_demo
      = (.token "tok", cache_demo) ∧
    (get_token msal_app_demo cache_demo disk_demo).1 = .ok "tok" :=
  ⟨rfl, rfl,
   (C2_get_token_order msal_app_demo cache_demo disk_demo).1 () [] "tok"
     cache_demo rfl rfl⟩

/-- C7: _save_cache writes exactly when the dirty flag is set (one write, of
the serialized blob) and leaves everything untouched on a clean flag; and in
the unexpired-cached-token scenario (silent acquisition serves a bearer
without touching the cache, clean flag) two successive get_token calls return
the same bearer and the second call performs no additional write. -/
theorem C7_idempotent_silent_refresh {Acct Flow R : Type}
    (app : MsalApp Acct Flow R) (c : CacheState) (d : DiskState) (a : Acct)
    (rest : List Acct) (t : String) :
    ((save_cache c d).2.writes
      = d.writes + (if c.hasStateChanged then 1 else 0)) ∧
    (c.hasStateChanged = true → (save_cache c d).2.file = some c.blob) ∧
    (c.hasStateChanged = false → save_cache c d = (c, d)) ∧
    (app.accounts = a :: rest →
      app.acquire_token_silent graph_scopes_full a c = (.token t, c) →
      c.hasStateChanged = false →
      get_token app c d = (.ok t, c, d) ∧
      (get_token app (get_token app c d).2.1 (get_token app c d).2.2).1 = .ok t ∧
      (get_token app (get_token app c d).2.1 (get_token app c d).2.2).2.2.writes
        = (get_token app c d).2.2.writes) := by
  refine ⟨?_, ?_, ?_, ?_⟩
  · unfold save_cache
    split <;> simp_all
  · intro hf
    unfold save_cache
    rw [if_pos hf]
  · intro hf
    unfold save_cache
    rw [if_neg (by rw [hf]; exact Bool.false_ne_true)]
  · intro hacc hsil hflag
    have hs : save_cache c d = (c, d) := by
      unfold save_cache
      rw [if_neg (by rw [hflag]; exact Bool.false_ne_true)]
    have hstep : get_token app c d = (.ok t, c, d) := by
      simp only [get_token, hacc, hsil, hs]
    have hstep2 : get_token app (get_token app c d).2.1 (get_token app c d).2.2
        = (.ok t, c, d) := by
      rw [hstep]
      exact hstep
    refine ⟨hstep, ?_, ?_⟩
    · rw [hstep2]
    · rw [hstep2, hstep]

/-- C7 witness: with the demo application and a clean cache, both calls yield
the bearer and the write counter stays unchanged after the second call. -/
theorem C7_witness :
    cache_demo.hasStateChanged = false ∧
    get_token msal_app_demo cache_demo disk_demo = (.ok "tok", cache_demo, disk_demo) ∧
    (get_token msal_app_demo
        (get_token msal_app_demo cache_demo disk_demo).2.1
        (get_token msal_app_demo cache_demo disk_demo).2.2).2.2.writes
      = (get_token msal_app_demo cache_demo disk_demo).2.2.writes :=
  ⟨rfl,
   ((C7_idempotent_silent_refresh msal_app_demo cache_demo disk_demo () [] "tok").2.2.2
     rfl rfl rfl).1,
   ((C7_idempotent_silent_refresh msal_app_demo cache_demo disk_demo () [] "tok").2.2.2
     rfl rfl rfl).2.2⟩

/-- C8: when the auth-code exchange reports the consumed-code error dict
without touching the cache and the dirty flag is clean, complete_auth returns
that error dict as a normal value (no exception) and leaves the cache and the
token store exactly as before the attempt. -/
theorem C8_consumed_code {Acct Flow R : Type} (app : MsalApp Acct Flow R)
    (flow : Flow) (resp : R) (c : CacheState) (d : DiskState) (err desc : String)
    (hres : app.acquire_token_by_auth_code_flow flow resp c
      = (.errorResult err desc, c))
    (hflag : c.hasStateChanged = false) :
    complete_auth app (some flow) resp c d
      = .ok (.errorResult err desc, c, d) := by
  have hs : save_cache c d = (c, d) := by
    unfold save_cache
    rw [if_neg (by rw [hflag]; exact Bool.false_ne_true)]
  simp only [complete_auth, hres, hs]

/-- C8 witness: the demo exchange reports the consumed-code error and the
call returns it as a value with cache and disk untouched. -/
theorem C8_witness :
    complete_auth msal_app_demo (some ()) () cache_demo disk_demo
      = .ok (.errorResult "invalid_grant" "consumed", cache_demo, disk_demo) :=
  C8_consumed_code msal_app_demo () () cache_demo disk_demo
    "invalid_grant" "consumed" rfl rfl

/-- C10: on a freshly initialized AuthManager the pending flow attribute is
absent, so complete_auth raises AttributeError (an unhandled exception, not a
classified error); the attribute is first assigned inside get_auth_url. -/
theorem C10_missing_pending_flow {Acct Flow R : Type} (app : MsalApp Acct Flow R)
    (resp : R) (c : CacheState) (d : DiskState) :
    complete_auth app (auth_manager_init Flow).pending_flow resp c d
      = .error .attributeError ∧
    (auth_manager_init Flow).pending_flow = (none : Option Flow) ∧
    ∀ st : AuthManagerState Flow,
      (get_auth_url app st).2.pending_flow
        = some (app.initiate_auth_code_flow graph_scopes_full auth_redirect_uri) :=
  ⟨rfl, rfl, fun _ => rfl⟩
